import Mathlib

/-!
Verification of the trading app's quantitative pipeline
(`src/shiny/trading/utils.py`) against its natural-language specification.

The pipeline operates on pandas DataFrames of daily price bars.  We embed a
DataFrame as a record of column lists.  Float `NaN` is modelled as `none` in
`Option ℝ`: every pandas elementwise operation propagates `NaN`, which is
exactly the behaviour of `omap2`/`Option.map`; pandas reductions
(`cumsum`, `cummax`, `min`, `mean`, `std`) default to `skipna=True`, i.e. a
`NaN` cell stays `NaN` in a cumulative result but is skipped by the
accumulator, and an all-`NaN` (or too-short) reduction yields `NaN` — the
`...Skip` functions below reproduce that.  Real numbers stand in for floats.
-/

namespace Trading

noncomputable section

/-- Elementwise lift of a binary real operation to `Option ℝ`, propagating
`NaN` (= `none`) exactly as IEEE arithmetic does. -/
def omap2 (f : ℝ → ℝ → ℝ) : Option ℝ → Option ℝ → Option ℝ
  | some a, some b => some (f a b)
  | _, _ => none

/-- pandas `Series.shift(1)`: first cell becomes `NaN`, the last value
falls off; length is preserved. -/
def shift1 {α : Type} (xs : List (Option α)) : List (Option α) :=
  match xs with
  | [] => []
  | _ :: _ => none :: xs.dropLast

/-- pandas `Series.cumsum()` with the default `skipna=True`: a `NaN` cell
stays `NaN` but is skipped by the running sum. -/
def cumsumSkip : ℝ → List (Option ℝ) → List (Option ℝ)
  | _, [] => []
  | acc, none :: xs => none :: cumsumSkip acc xs
  | acc, some x :: xs => some (acc + x) :: cumsumSkip (acc + x) xs

/-- Running-maximum accumulator for `cummaxSkip`, seeded with the maximum
`m` seen so far. -/
def cummaxSkipGo : ℝ → List (Option ℝ) → List (Option ℝ)
  | _, [] => []
  | m, none :: xs => none :: cummaxSkipGo m xs
  | m, some x :: xs => some (max m x) :: cummaxSkipGo (max m x) xs

/-- pandas `Series.cummax()` with the default `skipna=True`. -/
def cummaxSkip : List (Option ℝ) → List (Option ℝ)
  | [] => []
  | none :: xs => none :: cummaxSkip xs
  | some x :: xs => some x :: cummaxSkipGo x xs

/-- Minimum accumulator for `minSkip`. -/
def minSkipGo : ℝ → List (Option ℝ) → ℝ
  | a, [] => a
  | a, none :: xs => minSkipGo a xs
  | a, some x :: xs => minSkipGo (min a x) xs

/-- pandas `Series.min()` with the default `skipna=True`: `NaN` cells are
ignored; an all-`NaN` or empty series yields `NaN`. -/
def minSkip : List (Option ℝ) → Option ℝ
  | [] => none
  | none :: xs => minSkip xs
  | some x :: xs => some (minSkipGo x xs)

/-- pandas `Series.mean()`: `NaN` on an empty series. -/
def smean (xs : List ℝ) : Option ℝ :=
  if xs.length = 0 then none else some (xs.sum / xs.length)

/-- pandas `Series.std()` with the default `ddof=1` (sample standard
deviation): `NaN` on a series with fewer than 2 entries. -/
def sstd (xs : List ℝ) : Option ℝ :=
  if xs.length < 2 then none
  else some (Real.sqrt
    ((xs.map (fun x => (x - xs.sum / xs.length) ^ 2)).sum / ((xs.length : ℝ) - 1)))

/-- `df['Close'].pct_change().dropna()`: the percentage daily changes
`(close[t] - close[t-1]) / close[t-1]` for `t = 1 .. n-1` (the leading
`NaN` produced by `pct_change` is dropped). -/
def pctChanges (close : List ℝ) : List ℝ :=
  (close.zip close.tail).map (fun p => (p.2 - p.1) / p.1)

/-- Recursion step of `Series.ewm(span, adjust=False).mean()`: given the
previous smoothed value, emit `a*x + (1-a)*prev` for each new `x`. -/
def ewmGo (a prev : ℝ) : List ℝ → List ℝ
  | [] => []
  | x :: xs => (a * x + (1 - a) * prev) :: ewmGo a (a * x + (1 - a) * prev) xs

/-- pandas `Series.ewm(span, adjust=False).mean()` with smoothing constant
`a = 2/(span+1)`: the first output equals the first input. -/
def ewm (a : ℝ) : List ℝ → List ℝ
  | [] => []
  | x :: xs => x :: ewmGo a x xs

/-- A fetched price DataFrame: the columns the pipeline reads
(`Date` as day numbers, `Close`). -/
structure Df where
  date : List ℤ
  close : List ℝ

/-- Output of `calculate_indicators`: the source columns plus
`EMA_Short`, `EMA_Long`, `Signal`, `Position`. -/
structure IndicatorDf where
  date : List ℤ
  close : List ℝ
  emaShort : List ℝ
  emaLong : List ℝ
  signal : List ℝ
  position : List (Option ℝ)

/-- `calculate_indicators(df, short_window, long_window)` from
`src/shiny/trading/utils.py`: two EMAs, `Signal = np.where(EMA_Short >
EMA_Long, 1.0, 0.0)`, `Position = Signal.diff()`. -/
def calculate_indicators (df : Df) (shortWindow longWindow : ℕ) : IndicatorDf :=
  let emaS := ewm (2 / ((shortWindow : ℝ) + 1)) df.close
  let emaL := ewm (2 / ((longWindow : ℝ) + 1)) df.close
  let sig := (emaS.zip emaL).map (fun p => if p.2 < p.1 then (1 : ℝ) else 0)
  { date := df.date
    close := df.close
    emaShort := emaS
    emaLong := emaL
    signal := sig
    position := List.zipWith (omap2 (fun a b => a - b)) (sig.map some) (shift1 (sig.map some)) }

/-- Output of `calculate_backtest`: the indicator columns plus
`Strategy_Signal`, `Log_Returns`, `Strategy_Returns`, `Cum_Benchmark`,
`Cum_Strategy`, `Equity_Benchmark`, `Equity_Strategy`. -/
structure BacktestDf where
  date : List ℤ
  close : List ℝ
  emaShort : List ℝ
  emaLong : List ℝ
  signal : List ℝ
  position : List (Option ℝ)
  strategySignal : List (Option ℝ)
  logReturns : List (Option ℝ)
  strategyReturns : List (Option ℝ)
  cumBenchmark : List (Option ℝ)
  cumStrategy : List (Option ℝ)
  equityBenchmark : List (Option ℝ)
  equityStrategy : List (Option ℝ)

/-- `calculate_backtest(df, capital)` from `src/shiny/trading/utils.py`:
`Strategy_Signal = Signal.shift(1)`,
`Log_Returns = log(Close / Close.shift(1))`,
`Strategy_Returns = Strategy_Signal * Log_Returns`,
`Cum_* = *.cumsum().apply(exp)`, `Equity_* = Cum_* * capital`. -/
def calculate_backtest (df : IndicatorDf) (capital : ℝ) : BacktestDf :=
  let sSig := shift1 (df.signal.map some)
  let logR := List.zipWith (omap2 (fun a b => Real.log (a / b)))
      (df.close.map some) (shift1 (df.close.map some))
  let stratR := List.zipWith (omap2 (fun a b => a * b)) sSig logR
  let cumB := (cumsumSkip 0 logR).map (Option.map Real.exp)
  let cumS := (cumsumSkip 0 stratR).map (Option.map Real.exp)
  { date := df.date
    close := df.close
    emaShort := df.emaShort
    emaLong := df.emaLong
    signal := df.signal
    position := df.position
    strategySignal := sSig
    logReturns := logR
    strategyReturns := stratR
    cumBenchmark := cumB
    cumStrategy := cumS
    equityBenchmark := cumB.map (Option.map (fun c => c * capital))
    equityStrategy := cumS.map (Option.map (fun c => c * capital)) }

/-- The max-drawdown computation of `calculate_metrics`:
`rolling_max = Equity_Strategy.cummax()`,
`drawdown = Equity_Strategy / rolling_max - 1`, `max_dd = drawdown.min()`. -/
def metricsMaxDD (equity : List (Option ℝ)) : Option ℝ :=
  minSkip (List.zipWith (omap2 (fun e m => e / m - 1)) equity (cummaxSkip equity))

/-- Scalar summary produced by `calculate_metrics` (the numeric values
behind the formatted strings). -/
structure Metrics where
  totalReturn : Option ℝ
  bhReturn : Option ℝ
  cagr : Option ℝ
  maxDrawdown : Option ℝ

/-- `series.iloc[-1]` on a column of possibly-`NaN` cells (the Python code
raises on an empty column; we conflate that with `NaN`). -/
def ilocLast (xs : List (Option ℝ)) : Option ℝ :=
  (xs.getLast?).join

/-- `calculate_metrics(df, capital)` from `src/shiny/trading/utils.py`:
total return, buy-and-hold return, CAGR over
`max(days/365.25, 0.01)` years, and max drawdown. -/
def calculate_metrics (df : BacktestDf) (capital : ℝ) : Metrics :=
  let finalS := ilocLast df.equityStrategy
  let finalB := ilocLast df.equityBenchmark
  let days : ℝ := ((df.date.getLast?.getD 0 - df.date.head?.getD 0 : ℤ) : ℝ)
  let years : ℝ := max (days / 365.25) 0.01
  { totalReturn := finalS.map (fun v => v / capital - 1)
    bhReturn := finalB.map (fun v => v / capital - 1)
    cagr := finalS.map (fun v => (v / capital) ^ (1 / years) - 1)
    maxDrawdown := metricsMaxDD df.equityStrategy }

/-- `returns.mean()` inside `run_monte_carlo_simulation`, where
`returns = df['Close'].pct_change().dropna()`. -/
def mcMu (close : List ℝ) : Option ℝ :=
  smean (pctChanges close)

/-- `returns.std()` inside `run_monte_carlo_simulation` (pandas default
`ddof=1`). -/
def mcSigma (close : List ℝ) : Option ℝ :=
  sstd (pctChanges close)

/-- One entry of `daily_returns = exp(drift + sigma * random_shocks)`. -/
def mcDailyReturn (drift sigma : Option ℝ) (shock : ℝ) : Option ℝ :=
  omap2 (fun d s => Real.exp (d + s * shock)) drift sigma

/-- One simulated path: `price_paths[0] = start_price`;
`price_paths[t] = price_paths[t-1] * daily_returns[t]` for `t ≥ 1`. -/
def mcPath (start : Option ℝ) (dailyRet : ℕ → Option ℝ) : ℕ → Option ℝ
  | 0 => start
  | t + 1 => omap2 (fun a b => a * b) (mcPath start dailyRet t) (dailyRet (t + 1))

/-- Result of `run_monte_carlo_simulation`: the `time_horizon × simulations`
matrix of prices and the last row (`final_prices`). -/
structure SimResult where
  pricePaths : List (List (Option ℝ))
  finalPrices : List (Option ℝ)

/-- `run_monte_carlo_simulation(df, simulations, time_horizon)` from
`src/shiny/trading/utils.py`.  The normal draws `random_shocks[t, s]` are
passed in as the function `shocks`; `mu`, `sigma` are mean and (sample)
standard deviation of the percentage changes, `drift = mu - 0.5*sigma^2`,
`start_price = Close.iloc[-1]` (the Python code raises on an empty series;
here an empty series yields `none` cells).  `final_prices = price_paths[-1]`
(the Python code raises when `time_horizon = 0`; here the first row is
returned in that case — no claim touches a zero horizon). -/
def run_monte_carlo_simulation (close : List ℝ) (simulations timeHorizon : ℕ)
    (shocks : ℕ → ℕ → ℝ) : SimResult :=
  let mu := mcMu close
  let sigma := mcSigma close
  let drift := omap2 (fun m s => m - 0.5 * s ^ 2) mu sigma
  let path := fun (s t : ℕ) =>
    mcPath close.getLast? (fun u => mcDailyReturn drift sigma (shocks u s)) t
  { pricePaths :=
      (List.range timeHorizon).map (fun t =>
        (List.range simulations).map (fun s => path s t))
    finalPrices := (List.range simulations).map (fun s => path s (timeHorizon - 1)) }

/-- Cumulative sums of a real list, starting from `acc` (the `NaN`-free
counterpart of `cumsumSkip`). -/
def cumsumList (acc : ℝ) : List ℝ → List ℝ
  | [] => []
  | x :: xs => (acc + x) :: cumsumList (acc + x) xs

/-- The spec's EMA recursion: `ema[0] = close[0]`,
`ema[t] = alpha*close[t] + (1-alpha)*ema[t-1]`. -/
def emaSpec (a : ℝ) (close : ℕ → ℝ) : ℕ → ℝ
  | 0 => close 0
  | t + 1 => a * close (t + 1) + (1 - a) * emaSpec a close t

/-- EMA recursion seeded with an explicit previous value `prev`
(bridges `ewmGo` and `emaSpec`). -/
def emaFrom (a prev : ℝ) (f : ℕ → ℝ) : ℕ → ℝ
  | 0 => a * f 0 + (1 - a) * prev
  | t + 1 => a * f (t + 1) + (1 - a) * emaFrom a prev f t

/-- Running maximum of a real list seeded with `m`. -/
def runMaxGo (m : ℝ) : List ℝ → List ℝ
  | [] => []
  | x :: xs => max m x :: runMaxGo (max m x) xs

/-- Running maximum of a real list (`NaN`-free counterpart of
`cummaxSkip`). -/
def runMaxList : List ℝ → List ℝ
  | [] => []
  | x :: xs => x :: runMaxGo x xs

/-- Minimum of a real list, `none` when empty. -/
def minList : List ℝ → Option ℝ
  | [] => none
  | x :: xs => some (xs.foldl min x)

/-- The spec's max-drawdown formula, applied to a real equity curve:
`min over t of equity[t] / running_max(equity[0..t]) - 1`. -/
def specMaxDD (eq : List ℝ) : Option ℝ :=
  minList ((eq.zip (runMaxList eq)).map (fun p => p.1 / p.2 - 1))

/-- The spec's log returns: `ln(close[t]/close[t-1])` for `t = 1 .. n-1`. -/
def specLogReturns (close : List ℝ) : List ℝ :=
  List.zipWith (fun a b => Real.log (a / b)) close.tail close.dropLast

/-- The spec's strategy returns on rows `t ≥ 1`:
`signal[t-1] * log_return[t]`. -/
def specStrategyReturns (df : IndicatorDf) : List ℝ :=
  List.zipWith (fun a b => a * b) df.signal.dropLast (specLogReturns df.close)

/-- The spec's idealised strategy equity curve:
`equity[t] = capital * exp(cumulative_sum(strategy_return[0..t]))`, the
null return at row 0 treated as 0, so `equity[0] = capital`. -/
def specEquityStrategy (df : IndicatorDf) (capital : ℝ) : List ℝ :=
  (cumsumList 0 ((0 : ℝ) :: specStrategyReturns df)).map (fun c => capital * Real.exp c)

/-- Population mean per the spec's words ("population statistics over the
full available history"). -/
def popMean (xs : List ℝ) : ℝ :=
  xs.sum / xs.length

/-- Population variance per the spec's words. -/
def popVar (xs : List ℝ) : ℝ :=
  (xs.map (fun x => (x - popMean xs) ^ 2)).sum / xs.length

/-- Population standard deviation per the spec's words. -/
def popStd (xs : List ℝ) : ℝ :=
  Real.sqrt (popVar xs)

/-- A hand-built indicator table (concrete inputs for witnesses and
counterexamples); `calculate_backtest` only reads `close` and `signal`. -/
def sampleIndicator (close signal : List ℝ) : IndicatorDf :=
  { date := []
    close := close
    emaShort := []
    emaLong := []
    signal := signal
    position := [] }

/- ## General lemmas about the pandas primitives -/

theorem omap2_some_some (f : ℝ → ℝ → ℝ) (a b : ℝ) :
    omap2 f (some a) (some b) = some (f a b) := rfl

theorem omap2_none_left (f : ℝ → ℝ → ℝ) (x : Option ℝ) :
    omap2 f none x = none := rfl

theorem omap2_none_right (f : ℝ → ℝ → ℝ) (x : Option ℝ) :
    omap2 f x none = none := by
  cases x <;> rfl

theorem zipWith_omap2_map_some (f : ℝ → ℝ → ℝ) :
    ∀ (xs ys : List ℝ), List.zipWith (omap2 f) (xs.map some) (ys.map some)
      = (List.zipWith f xs ys).map some
  | [], _ => by simp
  | _ :: _, [] => by simp
  | x :: xs, y :: ys => by
      simp [omap2_some_some, zipWith_omap2_map_some f xs ys]

theorem cumsumSkip_map_some (acc : ℝ) :
    ∀ (xs : List ℝ), cumsumSkip acc (xs.map some) = (cumsumList acc xs).map some
  | [] => rfl
  | x :: xs => by simp [cumsumSkip, cumsumList, cumsumSkip_map_some (acc + x) xs]

theorem cummaxSkipGo_map_some (m : ℝ) :
    ∀ (xs : List ℝ), cummaxSkipGo m (xs.map some) = (runMaxGo m xs).map some
  | [] => rfl
  | x :: xs => by simp [cummaxSkipGo, runMaxGo, cummaxSkipGo_map_some (max m x) xs]

theorem cummaxSkip_map_some :
    ∀ (xs : List ℝ), cummaxSkip (xs.map some) = (runMaxList xs).map some
  | [] => rfl
  | x :: xs => by simp [cummaxSkip, runMaxList, cummaxSkipGo_map_some x xs]

theorem minSkipGo_map_some (a : ℝ) :
    ∀ (xs : List ℝ), minSkipGo a (xs.map some) = xs.foldl min a
  | [] => rfl
  | x :: xs => by simp [minSkipGo, minSkipGo_map_some (min a x) xs]

theorem minSkip_map_some :
    ∀ (xs : List ℝ), minSkip (xs.map some) = minList xs
  | [] => rfl
  | x :: xs => by simp [minSkip, minList, minSkipGo_map_some x xs]

theorem ewmGo_length (a : ℝ) : ∀ (prev : ℝ) (xs : List ℝ),
    (ewmGo a prev xs).length = xs.length
  | _, [] => rfl
  | prev, x :: xs => by simp [ewmGo, ewmGo_length a _ xs]

theorem ewm_length (a : ℝ) : ∀ xs : List ℝ, (ewm a xs).length = xs.length
  | [] => rfl
  | x :: xs => by simp [ewm, ewmGo_length]

theorem shift1_length {α : Type} : ∀ xs : List (Option α), (shift1 xs).length = xs.length
  | [] => rfl
  | x :: xs => by simp [shift1]

theorem cumsumSkip_length : ∀ (acc : ℝ) (xs : List (Option ℝ)),
    (cumsumSkip acc xs).length = xs.length
  | _, [] => rfl
  | acc, none :: xs => by simp [cumsumSkip, cumsumSkip_length acc xs]
  | acc, some x :: xs => by simp [cumsumSkip, cumsumSkip_length (acc + x) xs]

/- ## Projection equations for `calculate_backtest` -/

theorem backtest_strategySignal (df : IndicatorDf) (cap : ℝ) :
    (calculate_backtest df cap).strategySignal = shift1 (df.signal.map some) := rfl

theorem backtest_logReturns (df : IndicatorDf) (cap : ℝ) :
    (calculate_backtest df cap).logReturns
      = List.zipWith (omap2 (fun a b => Real.log (a / b)))
          (df.close.map some) (shift1 (df.close.map some)) := rfl

theorem backtest_strategyReturns (df : IndicatorDf) (cap : ℝ) :
    (calculate_backtest df cap).strategyReturns
      = List.zipWith (omap2 (fun a b => a * b))
          (calculate_backtest df cap).strategySignal
          (calculate_backtest df cap).logReturns := rfl

theorem backtest_cumStrategy (df : IndicatorDf) (cap : ℝ) :
    (calculate_backtest df cap).cumStrategy
      = (cumsumSkip 0 (calculate_backtest df cap).strategyReturns).map
          (Option.map Real.exp) := rfl

theorem backtest_cumBenchmark (df : IndicatorDf) (cap : ℝ) :
    (calculate_backtest df cap).cumBenchmark
      = (cumsumSkip 0 (calculate_backtest df cap).logReturns).map
          (Option.map Real.exp) := rfl

theorem backtest_equityStrategy (df : IndicatorDf) (cap : ℝ) :
    (calculate_backtest df cap).equityStrategy
      = (calculate_backtest df cap).cumStrategy.map
          (Option.map (fun c => c * cap)) := rfl

theorem backtest_equityBenchmark (df : IndicatorDf) (cap : ℝ) :
    (calculate_backtest df cap).equityBenchmark
      = (calculate_backtest df cap).cumBenchmark.map
          (Option.map (fun c => c * cap)) := rfl

/- ## Shape of the backtest columns on a non-empty table -/

theorem shift1_map_some_cons (x : ℝ) (xs : List ℝ) :
    shift1 ((x :: xs).map some) = none :: ((x :: xs).dropLast).map some := by
  simp [shift1, List.map_dropLast]

theorem logReturns_cons (df : IndicatorDf) (cap : ℝ) (c : ℝ) (cs : List ℝ)
    (hc : df.close = c :: cs) :
    (calculate_backtest df cap).logReturns
      = none :: (specLogReturns (c :: cs)).map some := by
  rw [backtest_logReturns, hc, shift1_map_some_cons]
  simp only [List.map_cons, List.zipWith_cons_cons, omap2_none_right]
  rw [zipWith_omap2_map_some]
  simp [specLogReturns]

theorem strategyReturns_cons (df : IndicatorDf) (cap : ℝ) (c s : ℝ) (cs ss : List ℝ)
    (hc : df.close = c :: cs) (hs : df.signal = s :: ss) :
    (calculate_backtest df cap).strategyReturns
      = none :: (List.zipWith (fun a b => a * b)
          ((s :: ss).dropLast) (specLogReturns (c :: cs))).map some := by
  rw [backtest_strategyReturns, backtest_strategySignal, hs, shift1_map_some_cons,
      logReturns_cons df cap c cs hc]
  simp only [List.zipWith_cons_cons, omap2_none_left]
  rw [zipWith_omap2_map_some]

theorem equityStrategy_cons (df : IndicatorDf) (cap : ℝ) (c s : ℝ) (cs ss : List ℝ)
    (hc : df.close = c :: cs) (hs : df.signal = s :: ss) :
    (calculate_backtest df cap).equityStrategy
      = none :: ((cumsumList 0 (List.zipWith (fun a b => a * b)
          ((s :: ss).dropLast) (specLogReturns (c :: cs)))).map
            (fun r => Real.exp r * cap)).map some := by
  rw [backtest_equityStrategy, backtest_cumStrategy,
    strategyReturns_cons df cap c s cs ss hc hs]
  simp only [cumsumSkip]
  rw [cumsumSkip_map_some]
  simp [List.map_map, Function.comp_def]

theorem equityBenchmark_cons (df : IndicatorDf) (cap : ℝ) (c : ℝ) (cs : List ℝ)
    (hc : df.close = c :: cs) :
    (calculate_backtest df cap).equityBenchmark
      = none :: ((cumsumList 0 (specLogReturns (c :: cs))).map
          (fun r => Real.exp r * cap)).map some := by
  rw [backtest_equityBenchmark, backtest_cumBenchmark, logReturns_cons df cap c cs hc]
  simp only [cumsumSkip]
  rw [cumsumSkip_map_some]
  simp [List.map_map, Function.comp_def]

/- ## Claim theorems -/

/-- C1 (counterexample): the claim `equity_benchmark[0] == capital` fails:
on the series with closes `[1, 1]` and capital `1000`, the first row of
`Equity_Benchmark` is `NaN` (pandas `cumsum` keeps `NaN` cells `NaN`),
not `1000`. -/
theorem equity_first_row_capital_counterexample :
    (calculate_backtest (sampleIndicator [1, 1] [0, 0]) 1000).equityBenchmark.head?
      ≠ some (some 1000) := by
  rw [equityBenchmark_cons (sampleIndicator [1, 1] [0, 0]) 1000 1 [1] rfl]
  simp

/-- C1 (amended): at the first row both equity curves are `NaN`
(undefined), not `capital`: `Log_Returns[0]` and `Strategy_Returns[0]` are
`NaN` and pandas `cumsum(skipna=True)` leaves `NaN` cells `NaN`, so
`Equity_Benchmark[0] = Equity_Strategy[0] = NaN` for every non-empty
series and every capital. -/
theorem equity_first_row_is_nan (df : IndicatorDf) (cap : ℝ)
    (h1 : df.close ≠ []) (h2 : df.signal ≠ []) :
    (calculate_backtest df cap).equityBenchmark.head? = some none ∧
    (calculate_backtest df cap).equityStrategy.head? = some none := by
  obtain ⟨c, cs, hc⟩ := List.exists_cons_of_ne_nil h1
  obtain ⟨s, ss, hs⟩ := List.exists_cons_of_ne_nil h2
  constructor
  · rw [equityBenchmark_cons df cap c cs hc]; rfl
  · rw [equityStrategy_cons df cap c s cs ss hc hs]; rfl

/-- C1 (witness): the amended statement instantiated at closes `[1, 1]`,
signal `[0, 0]`, capital `1000`. -/
theorem equity_first_row_is_nan_witness :
    (sampleIndicator [1, 1] [0, 0]).close ≠ [] ∧
    (sampleIndicator [1, 1] [0, 0]).signal ≠ [] ∧
    ((calculate_backtest (sampleIndicator [1, 1] [0, 0]) 1000).equityBenchmark.head?
        = some none ∧
     (calculate_backtest (sampleIndicator [1, 1] [0, 0]) 1000).equityStrategy.head?
        = some none) :=
  ⟨by simp [sampleIndicator], by simp [sampleIndicator],
   equity_first_row_is_nan (sampleIndicator [1, 1] [0, 0]) 1000
     (by simp [sampleIndicator]) (by simp [sampleIndicator])⟩

/-- C2: on a one-row price series (close `[100]`), `run_monte_carlo_simulation`
does not fail with an insufficient-data error: its return type has no error
case, and with horizon 2 and one path it returns price paths containing a
`NaN` (`mu` and `sigma` are `NaN` on an empty return series, and the `NaN`
propagates into every row after the first), for every draw of the shocks. -/
theorem monte_carlo_short_series_nan_paths (z : ℕ → ℕ → ℝ) :
    (run_monte_carlo_simulation [100] 1 2 z).pricePaths = [[some 100], [none]] ∧
    (run_monte_carlo_simulation [100] 1 2 z).finalPrices = [none] := by
  constructor <;> rfl

/-- C9: the tables returned by `calculate_indicators` and
`calculate_backtest` are row-aligned 1:1 with the source series: the date
column is carried over unchanged and every derived column has exactly as
many rows as the source close column. -/
theorem pipeline_row_alignment (df : Df) (s l : ℕ) (cap : ℝ) :
    (calculate_indicators df s l).date = df.date ∧
    (calculate_indicators df s l).close = df.close ∧
    (calculate_indicators df s l).emaShort.length = df.close.length ∧
    (calculate_indicators df s l).emaLong.length = df.close.length ∧
    (calculate_indicators df s l).signal.length = df.close.length ∧
    (calculate_indicators df s l).position.length = df.close.length ∧
    (calculate_backtest (calculate_indicators df s l) cap).date = df.date ∧
    (calculate_backtest (calculate_indicators df s l) cap).close = df.close ∧
    (calculate_backtest (calculate_indicators df s l) cap).strategySignal.length
      = df.close.length ∧
    (calculate_backtest (calculate_indicators df s l) cap).logReturns.length
      = df.close.length ∧
    (calculate_backtest (calculate_indicators df s l) cap).strategyReturns.length
      = df.close.length ∧
    (calculate_backtest (calculate_indicators df s l) cap).cumBenchmark.length
      = df.close.length ∧
    (calculate_backtest (calculate_indicators df s l) cap).cumStrategy.length
      = df.close.length ∧
    (calculate_backtest (calculate_indicators df s l) cap).equityBenchmark.length
      = df.close.length ∧
    (calculate_backtest (calculate_indicators df s l) cap).equityStrategy.length
      = df.close.length := by
  refine ⟨rfl, rfl, ?_, ?_, ?_, ?_, rfl, rfl, ?_, ?_, ?_, ?_, ?_, ?_, ?_⟩ <;>
    simp [calculate_indicators, calculate_backtest, ewm_length, shift1_length,
      cumsumSkip_length, List.length_zipWith, List.length_zip]

/-- C10: the benchmark columns (`Log_Returns`, `Cum_Benchmark`,
`Equity_Benchmark`) of the backtest depend only on the close prices and the
capital: they are identical for any two pairs of window parameters. -/
theorem benchmark_independent_of_windows (df : Df) (cap : ℝ) (s1 l1 s2 l2 : ℕ) :
    (calculate_backtest (calculate_indicators df s1 l1) cap).logReturns
      = (calculate_backtest (calculate_indicators df s2 l2) cap).logReturns ∧
    (calculate_backtest (calculate_indicators df s1 l1) cap).cumBenchmark
      = (calculate_backtest (calculate_indicators df s2 l2) cap).cumBenchmark ∧
    (calculate_backtest (calculate_indicators df s1 l1) cap).equityBenchmark
      = (calculate_backtest (calculate_indicators df s2 l2) cap).equityBenchmark :=
  ⟨rfl, rfl, rfl⟩

theorem shift1_getElem_succ {α : Type} (xs : List (Option α)) (t : ℕ)
    (h : t + 1 < xs.length) :
    (shift1 xs)[t + 1]? = xs[t]? := by
  cases xs with
  | nil => simp at h
  | cons x l =>
    simp only [shift1, List.getElem?_cons_succ, List.dropLast_eq_take,
      List.getElem?_take]
    rw [if_pos]
    simp only [List.length_cons] at h ⊢
    omega

/-- C3: `Strategy_Signal[t] = Signal[t-1]` for every row `t ≥ 1`; on row 0
the strategy return is `NaN` (no position, so no trade, whatever
`Signal[0]` is), and the cumulative strategy curve is built from the
strategy returns of rows `≥ 1` only — day 0 never trades. -/
theorem no_lookahead_lagged_signal (df : IndicatorDf) (cap : ℝ)
    (h1 : df.close ≠ []) (h2 : df.signal ≠ []) :
    (∀ t, t + 1 < df.signal.length →
        (calculate_backtest df cap).strategySignal[t + 1]?
          = (df.signal[t]?).map some) ∧
    (calculate_backtest df cap).strategyReturns.head? = some none ∧
    (calculate_backtest df cap).cumStrategy
      = none :: (cumsumSkip 0 (calculate_backtest df cap).strategyReturns.tail).map
          (Option.map Real.exp) := by
  obtain ⟨c, cs, hc⟩ := List.exists_cons_of_ne_nil h1
  obtain ⟨s, ss, hs⟩ := List.exists_cons_of_ne_nil h2
  refine ⟨?_, ?_, ?_⟩
  · intro t ht
    rw [backtest_strategySignal, shift1_getElem_succ _ t (by simpa using ht),
      List.getElem?_map]
  · rw [strategyReturns_cons df cap c s cs ss hc hs]; rfl
  · rw [backtest_cumStrategy, strategyReturns_cons df cap c s cs ss hc hs]
    simp [cumsumSkip]

/-- C3 (witness): the lag property and the no-trade first row at closes
`[100, 110, 121]`, signal `[1, 0, 1]`, capital `50`, row `t = 2`. -/
theorem no_lookahead_lagged_signal_witness :
    (sampleIndicator [100, 110, 121] [1, 0, 1]).close ≠ [] ∧
    (sampleIndicator [100, 110, 121] [1, 0, 1]).signal ≠ [] ∧
    1 + 1 < (sampleIndicator [100, 110, 121] [1, 0, 1]).signal.length ∧
    (calculate_backtest (sampleIndicator [100, 110, 121] [1, 0, 1]) 50).strategySignal[1 + 1]?
      = (((sampleIndicator [100, 110, 121] [1, 0, 1]).signal)[1]?).map some ∧
    (calculate_backtest (sampleIndicator [100, 110, 121] [1, 0, 1]) 50).strategyReturns.head?
      = some none :=
  ⟨by simp [sampleIndicator], by simp [sampleIndicator], by simp [sampleIndicator],
   (no_lookahead_lagged_signal (sampleIndicator [100, 110, 121] [1, 0, 1]) 50
      (by simp [sampleIndicator]) (by simp [sampleIndicator])).1 1
      (by simp [sampleIndicator]),
   (no_lookahead_lagged_signal (sampleIndicator [100, 110, 121] [1, 0, 1]) 50
      (by simp [sampleIndicator]) (by simp [sampleIndicator])).2.1⟩

theorem zipWith_one_mul : ∀ (b a : List ℝ), (∀ x ∈ a, x = 1) → b.length ≤ a.length →
    List.zipWith (fun x y => x * y) a b = b
  | [], a, _, _ => by simp
  | y :: ys, [], _, hlen => by simp at hlen
  | y :: ys, x :: xs, h1, hlen => by
      have hx : x = 1 := h1 x (by simp)
      simp only [List.zipWith_cons_cons, hx, one_mul]
      exact congrArg (y :: ·) (zipWith_one_mul ys xs
        (fun z hz => h1 z (List.mem_cons_of_mem x hz)) (by simpa using hlen))

/-- C7: when the signal column is 1 at every row, the strategy equity
curve equals the benchmark equity curve at every row (including the `NaN`
first row): the lagged signal is 1 everywhere after day 0, and day 0
contributes no trade to either curve. -/
theorem always_bullish_strategy_equals_benchmark (df : IndicatorDf) (cap : ℝ)
    (hs : ∀ x ∈ df.signal, x = 1) (hl : df.signal.length = df.close.length) :
    (calculate_backtest df cap).equityStrategy
      = (calculate_backtest df cap).equityBenchmark := by
  cases hcl : df.close with
  | nil =>
    have hsn : df.signal = [] := List.length_eq_zero.mp (by rw [hl, hcl]; rfl)
    rw [backtest_equityStrategy, backtest_cumStrategy, backtest_strategyReturns,
      backtest_strategySignal, backtest_equityBenchmark, backtest_cumBenchmark,
      backtest_logReturns, hsn, hcl]
    rfl
  | cons c cs =>
    have hsg : df.signal ≠ [] := by
      intro h
      rw [h, hcl] at hl
      simp at hl
    obtain ⟨s, ss, hs2⟩ := List.exists_cons_of_ne_nil hsg
    rw [equityStrategy_cons df cap c s cs ss hcl hs2,
      equityBenchmark_cons df cap c cs hcl]
    have hz : List.zipWith (fun a b => a * b) ((s :: ss).dropLast)
        (specLogReturns (c :: cs)) = specLogReturns (c :: cs) := by
      apply zipWith_one_mul
      · intro x hx
        refine hs x ?_
        rw [hs2]
        exact (List.dropLast_eq_take (s :: ss) ▸ List.take_subset _ _) hx
      · have hlen : ss.length = cs.length := by
          rw [hs2, hcl] at hl
          simpa using hl
        simp [specLogReturns, List.length_zipWith, hlen]
    rw [hz]

/-- C7 (witness): closes `[100, 110, 105]`, signal `[1, 1, 1]`,
capital `7`. -/
theorem always_bullish_strategy_equals_benchmark_witness :
    (∀ x ∈ (sampleIndicator [100, 110, 105] [1, 1, 1]).signal, x = 1) ∧
    (sampleIndicator [100, 110, 105] [1, 1, 1]).signal.length
      = (sampleIndicator [100, 110, 105] [1, 1, 1]).close.length ∧
    (calculate_backtest (sampleIndicator [100, 110, 105] [1, 1, 1]) 7).equityStrategy
      = (calculate_backtest (sampleIndicator [100, 110, 105] [1, 1, 1]) 7).equityBenchmark :=
  ⟨by simp [sampleIndicator], by simp [sampleIndicator],
   always_bullish_strategy_equals_benchmark (sampleIndicator [100, 110, 105] [1, 1, 1]) 7
     (by simp [sampleIndicator]) (by simp [sampleIndicator])⟩

/- ## EMA recursion lemmas -/

theorem emaFrom_shift (a prev : ℝ) (f : ℕ → ℝ) : ∀ t : ℕ,
    emaFrom a prev f (t + 1)
      = emaFrom a (a * f 0 + (1 - a) * prev) (fun i => f (i + 1)) t
  | 0 => rfl
  | t + 1 => by
      rw [show emaFrom a prev f (t + 1 + 1)
            = a * f (t + 1 + 1) + (1 - a) * emaFrom a prev f (t + 1) from rfl,
        emaFrom_shift a prev f t]
      rfl

theorem emaSpec_succ_eq_emaFrom (a : ℝ) (f : ℕ → ℝ) : ∀ t : ℕ,
    emaSpec a f (t + 1) = emaFrom a (f 0) (fun i => f (i + 1)) t
  | 0 => rfl
  | t + 1 => by
      rw [show emaSpec a f (t + 1 + 1)
            = a * f (t + 1 + 1) + (1 - a) * emaSpec a f (t + 1) from rfl,
        emaSpec_succ_eq_emaFrom a f t]
      rfl

theorem ewmGo_getElem (a : ℝ) : ∀ (xs : List ℝ) (prev : ℝ) (t : ℕ),
    t < xs.length →
    (ewmGo a prev xs)[t]? = some (emaFrom a prev (fun i => xs.getD i 0) t)
  | [], _, t, h => by simp at h
  | x :: xs, prev, 0, _ => by simp [ewmGo, emaFrom]
  | x :: xs, prev, t + 1, h => by
      simp only [ewmGo, List.getElem?_cons_succ]
      rw [ewmGo_getElem a xs (a * x + (1 - a) * prev) t (by simpa using h),
        emaFrom_shift]
      simp only [List.getD_cons_zero, List.getD_cons_succ]

theorem ewm_getElem (a : ℝ) (xs : List ℝ) (t : ℕ) (h : t < xs.length) :
    (ewm a xs)[t]? = some (emaSpec a (fun i => xs.getD i 0) t) := by
  cases xs with
  | nil => simp at h
  | cons x l =>
    cases t with
    | zero => simp [ewm, emaSpec]
    | succ t =>
      simp only [ewm, List.getElem?_cons_succ]
      rw [ewmGo_getElem a l x t (by simpa using h), emaSpec_succ_eq_emaFrom]
      simp only [List.getD_cons_zero, List.getD_cons_succ]

/-- C4: on every non-empty price series and positive windows, the EMA
columns equal the spec's recursive smoothing `ema[0] = close[0]`,
`ema[t] = alpha*close[t] + (1-alpha)*ema[t-1]` with `alpha = 2/(window+1)`,
independently for the short and long window, and `Signal[t] = 1` exactly
when `EMA_Short[t] > EMA_Long[t]`, else `0`. -/
theorem indicators_match_spec_recursion (df : Df) (s l : ℕ) (hs : 0 < s)
    (hl : 0 < l) (t : ℕ) (ht : t < df.close.length) :
    (calculate_indicators df s l).emaShort[t]?
      = some (emaSpec (2 / ((s : ℝ) + 1)) (fun i => df.close.getD i 0) t) ∧
    (calculate_indicators df s l).emaLong[t]?
      = some (emaSpec (2 / ((l : ℝ) + 1)) (fun i => df.close.getD i 0) t) ∧
    (calculate_indicators df s l).signal[t]?
      = some (if emaSpec (2 / ((l : ℝ) + 1)) (fun i => df.close.getD i 0) t
                < emaSpec (2 / ((s : ℝ) + 1)) (fun i => df.close.getD i 0) t
              then 1 else 0) := by
  have hS : (ewm (2 / ((s : ℝ) + 1)) df.close)[t]?
      = some (emaSpec (2 / ((s : ℝ) + 1)) (fun i => df.close.getD i 0) t) :=
    ewm_getElem _ _ _ ht
  have hL : (ewm (2 / ((l : ℝ) + 1)) df.close)[t]?
      = some (emaSpec (2 / ((l : ℝ) + 1)) (fun i => df.close.getD i 0) t) :=
    ewm_getElem _ _ _ ht
  refine ⟨hS, hL, ?_⟩
  show (((ewm (2 / ((s : ℝ) + 1)) df.close).zip
      (ewm (2 / ((l : ℝ) + 1)) df.close)).map
        (fun p => if p.2 < p.1 then (1 : ℝ) else 0))[t]? = _
  rw [List.getElem?_map, List.zip_eq_zipWith, List.getElem?_zipWith, hS, hL]
  rfl

/-- C4 (witness): the spec's scenario A, closes `[100, 102, 101, 105, 110]`
with windows 2 and 3, at row `t = 1`. -/
theorem indicators_match_spec_recursion_witness :
    0 < 2 ∧ 0 < 3 ∧ 1 < (Df.mk [0, 1, 2, 3, 4] [100, 102, 101, 105, 110]).close.length ∧
    (calculate_indicators (Df.mk [0, 1, 2, 3, 4] [100, 102, 101, 105, 110]) 2 3).emaShort[1]?
      = some (emaSpec (2 / ((2 : ℕ) + 1 : ℝ))
          (fun i => (Df.mk [0, 1, 2, 3, 4] [100, 102, 101, 105, 110]).close.getD i 0) 1) :=
  ⟨by norm_num, by norm_num, by simp,
   (indicators_match_spec_recursion (Df.mk [0, 1, 2, 3, 4] [100, 102, 101, 105, 110]) 2 3
     (by norm_num) (by norm_num) 1 (by simp)).1⟩

/- ## Monte Carlo lemmas -/

theorem mc_pricePaths (close : List ℝ) (sims horizon : ℕ) (z : ℕ → ℕ → ℝ) :
    (run_monte_carlo_simulation close sims horizon z).pricePaths
      = (List.range horizon).map (fun t => (List.range sims).map (fun s =>
          mcPath close.getLast? (fun u => mcDailyReturn
            (omap2 (fun m sg => m - 0.5 * sg ^ 2) (mcMu close) (mcSigma close))
            (mcSigma close) (z u s)) t)) := rfl

theorem mc_finalPrices (close : List ℝ) (sims horizon : ℕ) (z : ℕ → ℕ → ℝ) :
    (run_monte_carlo_simulation close sims horizon z).finalPrices
      = (List.range sims).map (fun s =>
          mcPath close.getLast? (fun u => mcDailyReturn
            (omap2 (fun m sg => m - 0.5 * sg ^ 2) (mcMu close) (mcSigma close))
            (mcSigma close) (z u s)) (horizon - 1)) := rfl

theorem mcPath_const_one (start : Option ℝ) (dailyRet : ℕ → Option ℝ)
    (h : ∀ u, dailyRet u = some 1) : ∀ t, mcPath start dailyRet t = start
  | 0 => rfl
  | t + 1 => by
      rw [show mcPath start dailyRet (t + 1)
            = omap2 (fun a b => a * b) (mcPath start dailyRet t) (dailyRet (t + 1))
          from rfl,
        mcPath_const_one start dailyRet h t, h (t + 1)]
      cases start with
      | none => rfl
      | some c => simp [omap2_some_some]

theorem map_range_const {α : Type} (n : ℕ) (b : α) :
    (List.range n).map (fun _ => b) = List.replicate n b := by
  rw [show (fun _ : ℕ => b) = Function.const ℕ b from rfl, List.map_const,
    List.length_range]

theorem popVar_replicate (n : ℕ) (c : ℝ) : popVar (List.replicate n c) = 0 := by
  cases n with
  | zero => simp [popVar]
  | succ m =>
    have hm : popMean (List.replicate (m + 1) c) = c := by
      rw [popMean, List.sum_replicate, List.length_replicate, nsmul_eq_mul,
        mul_div_cancel_left₀ c
          (show ((m + 1 : ℕ) : ℝ) ≠ 0 from Nat.cast_ne_zero.mpr (Nat.succ_ne_zero m))]
    rw [popVar, hm]
    simp [List.map_replicate, List.sum_replicate]

theorem reduceOption_replicate_none {α : Type} :
    ∀ n : ℕ, (List.replicate n (none : Option α)).reduceOption = []
  | 0 => rfl
  | n + 1 => by simp [List.replicate_succ, List.reduceOption,
      reduceOption_replicate_none n]

theorem reduceOption_replicate_some (c : ℝ) :
    ∀ n : ℕ, (List.replicate n (some c)).reduceOption = List.replicate n c
  | 0 => rfl
  | n + 1 => by simp [List.replicate_succ, List.reduceOption,
      reduceOption_replicate_some c n]

/-- C8: whenever the derived return statistics are `mu = 0` and
`sigma = 0`, every simulated Monte Carlo path is constant and equal to the
last observed close, for every draw of the random shocks, and
`final_prices` has zero (population) variance. -/
theorem monte_carlo_zero_drift_constant_paths (close : List ℝ) (sims horizon : ℕ)
    (z : ℕ → ℕ → ℝ) (hmu : mcMu close = some 0) (hsig : mcSigma close = some 0) :
    (run_monte_carlo_simulation close sims horizon z).pricePaths
      = List.replicate horizon (List.replicate sims close.getLast?) ∧
    (run_monte_carlo_simulation close sims horizon z).finalPrices
      = List.replicate sims close.getLast? ∧
    popVar ((run_monte_carlo_simulation close sims horizon z).finalPrices.reduceOption)
      = 0 := by
  have hret : ∀ s u : ℕ,
      mcDailyReturn (omap2 (fun m sg => m - 0.5 * sg ^ 2) (mcMu close) (mcSigma close))
        (mcSigma close) (z u s) = some 1 := by
    intro s u
    rw [mcDailyReturn, hmu, hsig, omap2_some_some, omap2_some_some]
    norm_num
  have hpath : ∀ s t : ℕ,
      mcPath close.getLast? (fun u => mcDailyReturn
        (omap2 (fun m sg => m - 0.5 * sg ^ 2) (mcMu close) (mcSigma close))
        (mcSigma close) (z u s)) t = close.getLast? :=
    fun s t => mcPath_const_one _ _ (fun u => hret s u) t
  have hfin : (run_monte_carlo_simulation close sims horizon z).finalPrices
      = List.replicate sims close.getLast? := by
    rw [mc_finalPrices]
    simp only [hpath]
    exact map_range_const sims _
  refine ⟨?_, hfin, ?_⟩
  · rw [mc_pricePaths]
    simp only [hpath]
    simp only [map_range_const]
  · rw [hfin]
    cases hlast : close.getLast? with
    | none => rw [reduceOption_replicate_none]; simp [popVar]
    | some c => rw [reduceOption_replicate_some, popVar_replicate]

/-- C8 (witness): the constant series `[5, 5, 5]` (3 rows) has `mu = 0`
and `sigma = 0`, and with 2 paths over a 3-day horizon every simulated
price equals the last close `5`. -/
theorem monte_carlo_zero_drift_constant_paths_witness :
    mcMu [5, 5, 5] = some 0 ∧ mcSigma [5, 5, 5] = some 0 ∧
    (run_monte_carlo_simulation [5, 5, 5] 2 3 (fun a b => (a : ℝ) + b)).pricePaths
      = List.replicate 3 (List.replicate 2 (([5, 5, 5] : List ℝ).getLast?)) :=
  ⟨by norm_num [mcMu, pctChanges, smean],
   by norm_num [mcSigma, pctChanges, sstd, Real.sqrt_zero],
   (monte_carlo_zero_drift_constant_paths [5, 5, 5] 2 3 (fun a b => (a : ℝ) + b)
     (by norm_num [mcMu, pctChanges, smean])
     (by norm_num [mcSigma, pctChanges, sstd, Real.sqrt_zero])).1⟩

/-- C5 (counterexample): on the series with closes `[1, 2, 1]` the code's
`sigma` is the sample standard deviation `sqrt(9/8)` of the percentage
changes `[1, -1/2]` (pandas `std()` defaults to `ddof=1`), while the
population standard deviation is `3/4` — the claim that `sigma` is a
population statistic fails. -/
theorem sigma_not_population_counterexample :
    mcSigma [1, 2, 1] ≠ some (popStd (pctChanges [1, 2, 1])) := by
  have h1 : mcSigma [1, 2, 1] = some (Real.sqrt (9 / 8)) := by
    norm_num [mcSigma, sstd, pctChanges]
  have h2 : popStd (pctChanges [1, 2, 1]) = 3 / 4 := by
    have hv : popVar (pctChanges [1, 2, 1]) = 9 / 16 := by
      norm_num [popVar, popMean, pctChanges]
    rw [popStd, hv, show (9 : ℝ) / 16 = (3 / 4) ^ 2 by norm_num,
      Real.sqrt_sq (by norm_num)]
  rw [h1, h2]
  intro h
  have h3 := Option.some.inj h
  have h4 : ((9 : ℝ) / 8) = (3 / 4) ^ 2 := by
    rw [← Real.sq_sqrt (show (0 : ℝ) ≤ 9 / 8 by norm_num), h3]
  norm_num at h4

/-- C5 (amended): `mu` is the mean of the percentage daily changes over the
full available history (no windowing), and `sigma` is their SAMPLE standard
deviation (`ddof = 1`, Bessel-corrected):
`sigma = sqrt(n/(n-1) * population_variance)` where `n` is the number of
returns. -/
theorem mc_stats_sample_std (close : List ℝ)
    (h : 2 ≤ (pctChanges close).length) :
    mcMu close = some (popMean (pctChanges close)) ∧
    mcSigma close = some (Real.sqrt
      ((((pctChanges close).length : ℝ) / (((pctChanges close).length : ℝ) - 1))
        * popVar (pctChanges close))) := by
  constructor
  · rw [mcMu, smean, if_neg (by omega)]
    rfl
  · have hn : (2 : ℝ) ≤ ((pctChanges close).length : ℝ) := by exact_mod_cast h
    have h0 : ((pctChanges close).length : ℝ) ≠ 0 := by linarith
    have h1 : ((pctChanges close).length : ℝ) - 1 ≠ 0 := by linarith
    have key : ((pctChanges close).map
          (fun x => (x - (pctChanges close).sum / ((pctChanges close).length : ℝ)) ^ 2)).sum
            / (((pctChanges close).length : ℝ) - 1)
        = (((pctChanges close).length : ℝ) / (((pctChanges close).length : ℝ) - 1))
            * popVar (pctChanges close) := by
      simp only [popVar, popMean]
      field_simp
      ring
    rw [mcSigma, sstd, if_neg (by omega), key]

/-- C5 (witness): the amended statement at closes `[1, 2, 1]`. -/
theorem mc_stats_sample_std_witness :
    2 ≤ (pctChanges [1, 2, 1]).length ∧
    mcMu [1, 2, 1] = some (popMean (pctChanges [1, 2, 1])) ∧
    mcSigma [1, 2, 1] = some (Real.sqrt
      ((((pctChanges [1, 2, 1]).length : ℝ) / (((pctChanges [1, 2, 1]).length : ℝ) - 1))
        * popVar (pctChanges [1, 2, 1]))) :=
  ⟨by norm_num [pctChanges],
   (mc_stats_sample_std [1, 2, 1] (by norm_num [pctChanges])).1,
   (mc_stats_sample_std [1, 2, 1] (by norm_num [pctChanges])).2⟩

/- ## Drawdown lemmas -/

theorem zipWith_eq_zip_map {α β γ : Type} (f : α → β → γ) :
    ∀ (xs : List α) (ys : List β),
      List.zipWith f xs ys = (xs.zip ys).map (fun p => f p.1 p.2)
  | [], _ => by simp
  | _ :: _, [] => by simp
  | x :: xs, y :: ys => by simp [zipWith_eq_zip_map f xs ys]

theorem zip_self : ∀ (xs : List ℝ), xs.zip xs = xs.map (fun x => (x, x))
  | [] => rfl
  | x :: xs => by simp [zip_self xs]

theorem foldl_min_le : ∀ (xs : List ℝ) (a : ℝ), xs.foldl min a ≤ a
  | [], _ => le_refl _
  | x :: xs, a => le_trans (foldl_min_le xs (min a x)) (min_le_left a x)

theorem foldl_min_const (a : ℝ) : ∀ xs : List ℝ, (∀ x ∈ xs, x = a) →
    xs.foldl min a = a
  | [], _ => rfl
  | x :: xs, h => by
      rw [List.foldl_cons, h x (by simp), min_self,
        foldl_min_const a xs (fun y hy => h y (by simp [hy]))]

theorem minList_le_head (y : ℝ) (ys : List ℝ) :
    ∃ d, minList (y :: ys) = some d ∧ d ≤ y :=
  ⟨ys.foldl min y, rfl, foldl_min_le ys y⟩

theorem minList_all_zero (xs : List ℝ) (hne : xs ≠ []) (h : ∀ x ∈ xs, x = 0) :
    minList xs = some 0 := by
  cases xs with
  | nil => exact absurd rfl hne
  | cons x l =>
    rw [minList, h x (by simp), foldl_min_const 0 l (fun y hy => h y (by simp [hy]))]

theorem runMaxGo_chain : ∀ (xs : List ℝ) (m : ℝ),
    List.Chain (fun a b => a ≤ b) m xs → runMaxGo m xs = xs
  | [], _, _ => rfl
  | y :: ys, m, h => by
      obtain ⟨hmy, hch⟩ := List.chain_cons.mp h
      rw [runMaxGo, max_eq_right hmy, runMaxGo_chain ys y hch]

theorem runMaxList_chain : ∀ xs : List ℝ,
    List.Chain' (fun a b => a ≤ b) xs → runMaxList xs = xs
  | [], _ => rfl
  | x :: xs, h => by
      rw [runMaxList, runMaxGo_chain xs x h]

theorem cumsumList_length : ∀ (acc : ℝ) (xs : List ℝ),
    (cumsumList acc xs).length = xs.length
  | _, [] => rfl
  | acc, x :: xs => by simp [cumsumList, cumsumList_length (acc + x) xs]

theorem reduceOption_map_some : ∀ xs : List ℝ, (xs.map some).reduceOption = xs
  | [] => rfl
  | x :: xs => by simp [List.reduceOption, reduceOption_map_some xs]

/-- The code's max-drawdown on a column whose first row is `NaN` and whose
remaining rows are real values equals the spec formula applied to those
real values alone: pandas skips the `NaN` row everywhere. -/
theorem metricsMaxDD_none_cons (xs : List ℝ) :
    metricsMaxDD (none :: xs.map some) = specMaxDD xs := by
  rw [metricsMaxDD,
    show cummaxSkip (none :: xs.map some) = none :: cummaxSkip (xs.map some) from rfl,
    cummaxSkip_map_some,
    show List.zipWith (omap2 (fun e m => e / m - 1)) (none :: xs.map some)
        (none :: (runMaxList xs).map some)
      = none :: List.zipWith (omap2 (fun e m => e / m - 1)) (xs.map some)
          ((runMaxList xs).map some) from rfl,
    zipWith_omap2_map_some,
    show minSkip (none :: (List.zipWith (fun e m => e / m - 1) xs (runMaxList xs)).map some)
      = minSkip ((List.zipWith (fun e m => e / m - 1) xs (runMaxList xs)).map some) from rfl,
    minSkip_map_some, specMaxDD, zipWith_eq_zip_map]

theorem specMaxDD_nonpos (eq : List ℝ) (hne : eq ≠ []) (hpos : ∀ x ∈ eq, 0 < x) :
    ∃ d, specMaxDD eq = some d ∧ d ≤ 0 := by
  cases eq with
  | nil => exact absurd rfl hne
  | cons e es =>
    have he : e ≠ 0 := ne_of_gt (hpos e (by simp))
    obtain ⟨d, hd, hdle⟩ := minList_le_head (e / e - 1)
      ((es.zip (runMaxGo e es)).map (fun p => p.1 / p.2 - 1))
    refine ⟨d, ?_, ?_⟩
    · rw [specMaxDD, show runMaxList (e :: es) = e :: runMaxGo e es from rfl,
        List.zip_cons_cons, List.map_cons]
      exact hd
    · rw [div_self he] at hdle
      linarith

theorem specMaxDD_of_chain (eq : List ℝ) (hne : eq ≠ []) (hpos : ∀ x ∈ eq, 0 < x)
    (hchain : List.Chain' (fun a b => a ≤ b) eq) : specMaxDD eq = some 0 := by
  rw [specMaxDD, runMaxList_chain eq hchain, zip_self, List.map_map]
  apply minList_all_zero
  · simpa using hne
  · intro d hd
    obtain ⟨x, hx, hdx⟩ := List.mem_map.mp hd
    rw [← hdx]
    simp only [Function.comp_apply]
    rw [div_self (ne_of_gt (hpos x hx))]
    ring

theorem max_drawdown_amended_core (xs : List ℝ) (hne : xs ≠ [])
    (hpos : ∀ x ∈ xs, 0 < x) :
    metricsMaxDD (none :: xs.map some)
      = specMaxDD ((none :: xs.map some).tail.reduceOption) ∧
    (∃ d, metricsMaxDD (none :: xs.map some) = some d ∧ d ≤ 0) ∧
    (List.Chain' (fun a b => a ≤ b) ((none :: xs.map some).tail.reduceOption) →
      metricsMaxDD (none :: xs.map some) = some 0) := by
  have ht : (none :: xs.map some).tail.reduceOption = xs := by
    rw [List.tail_cons, reduceOption_map_some]
  rw [ht, metricsMaxDD_none_cons]
  exact ⟨rfl, specMaxDD_nonpos xs hne hpos,
    fun hch => specMaxDD_of_chain xs hne hpos hch⟩

theorem specMaxDD_singleton (e : ℝ) (he : e ≠ 0) : specMaxDD [e] = some 0 := by
  rw [specMaxDD, show runMaxList [e] = [e] from rfl]
  simp [minList, div_self he]

/-- C6 (counterexample): the claim's formula — minimum over ALL rows `t`
(row 0 included) of `equity[t] / running_max(equity[0..t]) - 1`, with the
equity curve the spec describes (`equity[0] = capital`) — disagrees with
what `calculate_metrics` computes.  On closes `[2, 1]`, signal `[1, 1]`,
capital `100`, the code returns `0` (row 0 of `Equity_Strategy` is `NaN`
and pandas skips it, so the running maximum starts at row 1), while the
claimed formula gives `-1/2`. -/
theorem max_drawdown_formula_counterexample :
    metricsMaxDD ((calculate_backtest (sampleIndicator [2, 1] [1, 1]) 100).equityStrategy)
      ≠ specMaxDD (specEquityStrategy (sampleIndicator [2, 1] [1, 1]) 100) := by
  have hcode : metricsMaxDD
      ((calculate_backtest (sampleIndicator [2, 1] [1, 1]) 100).equityStrategy)
        = some 0 := by
    rw [equityStrategy_cons (sampleIndicator [2, 1] [1, 1]) 100 2 1 [1] [1] rfl rfl,
      metricsMaxDD_none_cons,
      show (cumsumList 0 (List.zipWith (fun a b => a * b)
          (([1, 1] : List ℝ).dropLast) (specLogReturns [2, 1]))).map
            (fun r => Real.exp r * 100)
        = [Real.exp (0 + 1 * Real.log (1 / 2)) * 100] from rfl]
    exact specMaxDD_singleton _ (by positivity)
  have hE2 : (100 : ℝ) * Real.exp (0 + 0) = 100 := by
    norm_num [Real.exp_zero]
  have hE3 : (100 : ℝ) * Real.exp (0 + 0 + 1 * Real.log (1 / 2)) = 50 := by
    have harg : (0 : ℝ) + 0 + 1 * Real.log (1 / 2) = Real.log (1 / 2) := by ring
    rw [harg, Real.exp_log (by norm_num : (0 : ℝ) < 1 / 2)]
    norm_num
  have hE : specEquityStrategy (sampleIndicator [2, 1] [1, 1]) 100 = [100, 50] := by
    rw [show specEquityStrategy (sampleIndicator [2, 1] [1, 1]) 100
        = [100 * Real.exp (0 + 0), 100 * Real.exp (0 + 0 + 1 * Real.log (1 / 2))]
      from rfl, hE2, hE3]
  have hspecval : specMaxDD [(100 : ℝ), 50] = some (-(1 / 2)) := by
    rw [specMaxDD, show runMaxList [(100 : ℝ), 50] = [100, max 100 50] from rfl,
      max_eq_left (show (50 : ℝ) ≤ 100 by norm_num),
      show (([(100 : ℝ), 50].zip [(100 : ℝ), 100]).map (fun p => p.1 / p.2 - 1))
        = [100 / 100 - 1, 50 / 100 - 1] from rfl,
      show minList [(100 : ℝ) / 100 - 1, 50 / 100 - 1]
        = some (min (100 / 100 - 1) (50 / 100 - 1)) from rfl,
      show min ((100 : ℝ) / 100 - 1) (50 / 100 - 1) = -(1 / 2) from by
        rw [min_eq_right (by norm_num)]; norm_num]
  rw [hcode, hE, hspecval]
  norm_num

/-- C6 (amended): `max_drawdown` is the minimum over rows `t ≥ 1` of
`equity_strategy[t] / running_max(equity_strategy[1..t]) - 1` — row 0 is
excluded because `Equity_Strategy[0]` is `NaN` and pandas skips `NaN` in
`cummax` and `min`.  For every backtest of a well-formed table with at
least 2 rows and positive capital this value exists and is non-positive,
and it is exactly `0` whenever the (real-valued) equity curve from row 1
on is monotonically non-decreasing. -/
theorem max_drawdown_amended (df : IndicatorDf) (cap : ℝ)
    (hlen : df.signal.length = df.close.length) (hn : 2 ≤ df.close.length)
    (hcap : 0 < cap) :
    metricsMaxDD ((calculate_backtest df cap).equityStrategy)
      = specMaxDD ((calculate_backtest df cap).equityStrategy.tail.reduceOption) ∧
    (∃ d, metricsMaxDD ((calculate_backtest df cap).equityStrategy) = some d ∧ d ≤ 0) ∧
    (List.Chain' (fun a b => a ≤ b)
        ((calculate_backtest df cap).equityStrategy.tail.reduceOption) →
      metricsMaxDD ((calculate_backtest df cap).equityStrategy) = some 0) := by
  have hc_ne : df.close ≠ [] := by
    intro h
    rw [h] at hn
    simp at hn
  obtain ⟨c, cs, hc⟩ := List.exists_cons_of_ne_nil hc_ne
  have hs_ne : df.signal ≠ [] := by
    intro h
    rw [h, hc] at hlen
    simp at hlen
  obtain ⟨s, ss, hs⟩ := List.exists_cons_of_ne_nil hs_ne
  rw [equityStrategy_cons df cap c s cs ss hc hs]
  apply max_drawdown_amended_core
  · have h1 : ss.length = cs.length := by
      rw [hs, hc] at hlen
      simpa using hlen
    have h2 : 1 ≤ cs.length := by
      rw [hc] at hn
      simp only [List.length_cons] at hn
      omega
    intro hnil
    have hlen0 := congrArg List.length hnil
    rw [List.length_map, cumsumList_length, List.length_zipWith] at hlen0
    have e1 : (s :: ss).dropLast.length = ss.length := by simp
    have e2 : (specLogReturns (c :: cs)).length = cs.length := by
      simp [specLogReturns, List.length_zipWith, List.length_tail,
        List.length_dropLast]
    rw [e1, e2, h1, min_self, List.length_nil] at hlen0
    omega
  · intro x hx
    obtain ⟨r, _, hrx⟩ := List.mem_map.mp hx
    rw [← hrx]
    exact mul_pos (Real.exp_pos r) hcap

/-- C6 (witness): the amended statement at closes `[1, 1]`, signal
`[0, 0]`, capital `1`: the drawdown exists and is non-positive. -/
theorem max_drawdown_amended_witness :
    (sampleIndicator [1, 1] [0, 0]).signal.length
      = (sampleIndicator [1, 1] [0, 0]).close.length ∧
    2 ≤ (sampleIndicator [1, 1] [0, 0]).close.length ∧
    (0 : ℝ) < 1 ∧
    (∃ d, metricsMaxDD
        ((calculate_backtest (sampleIndicator [1, 1] [0, 0]) 1).equityStrategy)
      = some d ∧ d ≤ 0) :=
  ⟨by simp [sampleIndicator], by simp [sampleIndicator], by norm_num,
   (max_drawdown_amended (sampleIndicator [1, 1] [0, 0]) 1
     (by simp [sampleIndicator]) (by simp [sampleIndicator]) (by norm_num)).2.1⟩

end

end Trading
